import Mathlib

/-!
Shallow embedding of the CD-ROM → SPU audio streaming scheduler of
`src/psx/audio.c` (PSXFunkin): the `.VAG` header geometry computed by
`Audio_LoadStream`, the read scheduler `Audio_FeedStream`, and the CD read
completion callback `cd_read_handler`.

External collaborators are modelled as explicit inputs:

* `busy` stands for `CdReadSync(1, 0) > 0` (a CD read still in flight);
* `refillLenBytes` stands for the byte count returned by
  `Stream_GetRefillLength(&stream_ctx)`;
* `feedLenBytes` stands for the byte count returned by
  `Stream_GetFeedPtr(&stream_ctx, &ptr)`;
* an issued read `(pos, len)` stands for the
  `CdIntToPos(read_ctx.start_lba + next_sector, &pos); CdRead(refill_length, …)`
  pair: `len` sectors starting at absolute sector `pos`;
* `Stream_Feed(&stream_ctx, n)` is recorded as the byte count `n` returned by
  the completion handler (and accumulated in the `fed` field of `SysState`).

C `int` values are modelled as `Int` and `size_t`/`uint32_t` values as `Nat`;
where the C source computes in 32-bit unsigned arithmetic the definitions
reduce modulo `U32 = 2^32` explicitly.  All quantities actually reachable in
the program stay far below `2^31` (`stream_length` is at most `2^32 / 2048`),
so no signed-`int` wraparound is modelled for the cursor arithmetic.
-/

/-- `2^32`, the modulus of the C `uint32_t` arithmetic in `audio.c`. -/
def U32 : Nat := 4294967296

/-- The magic tag documented in `audio.c` for interleaved `.VAG` files:
`0x69474156` ("VAGi").  The constant appears only in a comment in the source;
`Audio_LoadStream` never compares the header against it. -/
def VAGi_MAGIC : Nat := 0x69474156

/-- The `VAG_Header` struct of `audio.c`, raw wire values: `size` and
`sample_rate` are big-endian on the wire, `interleave` and `channels` are
little-endian.  Fields are the 32-bit (resp. 16-bit for `channels`) values
as read from the first sector of the file. -/
structure VAG_Header where
  magic : Nat
  version : Nat
  interleave : Nat
  size : Nat
  sample_rate : Nat
  channels : Nat
  deriving DecidableEq

/-- The `SWAP_ENDIAN` macro of `audio.c` on a 32-bit value. -/
def SWAP_ENDIAN (x : Nat) : Nat :=
  ((x &&& 0x000000ff) <<< 24) |||
  ((x &&& 0x0000ff00) <<< 8) |||
  ((x &&& 0x00ff0000) >>> 8) |||
  ((x &&& 0xff000000) >>> 24)

/-- `REFILL_THRESHOLD` of `audio.c`: minimum number of sectors read from the
CD-ROM at once. -/
def REFILL_THRESHOLD : Nat := 24

/-- The `StreamReadContext` struct of `audio.c`
(`int start_lba, stream_length; volatile int next_sector;
volatile size_t refill_length;`). -/
structure StreamReadContext where
  start_lba : Int
  stream_length : Int
  next_sector : Int
  refill_length : Nat
  deriving DecidableEq

/-- `int num_channels = vag->channels ? vag->channels : 2;`
(`Audio_LoadStream`, line 226). -/
def num_channels (vag : VAG_Header) : Nat :=
  if vag.channels ≠ 0 then vag.channels else 2

/-- `int num_chunks = (SWAP_ENDIAN(vag->size) + vag->interleave - 1) /
vag->interleave;` (`Audio_LoadStream`, lines 227-228).  The sum and the
`- 1` are computed in `uint32_t` arithmetic, hence the explicit reduction
modulo `U32` (adding `U32 - 1` models the wrapping `- 1`). -/
def num_chunks (vag : VAG_Header) : Nat :=
  (SWAP_ENDIAN vag.size + vag.interleave + (U32 - 1)) % U32 / vag.interleave

/-- `read_ctx.stream_length = (num_channels * num_chunks * vag->interleave
+ 2047) / 2048;` (`Audio_LoadStream`, lines 253-254), the products and sum
computed in `uint32_t`. -/
def stream_length (vag : VAG_Header) : Nat :=
  (num_channels vag * num_chunks vag * vag.interleave % U32 + 2047) % U32 / 2048

/-- The `CdlIntrResult` event codes passed to a `CdReadCallback` handler. -/
inductive CdlIntrResult where
  | CdlNoIntr
  | CdlDataReady
  | CdlComplete
  | CdlAcknowledge
  | CdlDataEnd
  | CdlDiskError
  deriving DecidableEq

/-- `cd_read_handler` of `audio.c` (lines 138-142): on any event other than
`CdlDiskError` it calls `Stream_Feed(&stream_ctx, read_ctx.refill_length *
2048)`.  The result is the byte count passed to `Stream_Feed`, or `none` when
nothing is fed.  The handler reads `read_ctx.refill_length` and writes no
field of `read_ctx`. -/
def cd_read_handler (event : CdlIntrResult) (read_ctx : StreamReadContext) :
    Option Nat :=
  if event ≠ CdlIntrResult.CdlDiskError then
    some (read_ctx.refill_length * 2048)
  else
    none

/-- The cursor-normalization loop of `Audio_FeedStream` (lines 185-188):

`while (max_length <= 0) { next_sector -= stream_length; max_length +=
stream_length; }`

with `max_length = L - next` kept implicit.  The loop is not obviously
terminating (for `L = 0` it never is, see `c10_theorem`), so it is embedded
with explicit fuel: `none` means the given fuel was exhausted with the loop
condition still true. -/
def normFuel (L : Int) : Nat → Int → Option Int
  | 0, next => if L - next ≤ 0 then none else some next
  | fuel + 1, next => if L - next ≤ 0 then normFuel L fuel (next - L) else some next

/-- `Audio_FeedStream` of `audio.c` (lines 166-205) as a function of the
read context and of the values reported by its collaborators.  The result is
`some (read_ctx', returned, issued)`: the updated context, the C `bool`
return value and, when a CD read was started, `some (pos, len)` for
`CdRead(len, …)` at absolute sector `pos`.  A `none` result means the
normalization loop did not terminate within `fuel` iterations.

The C comparison `refill_length > max_length` is between `size_t` and `int`;
it is reached only after the loop has established `max_length > 0`, where the
unsigned comparison agrees with the `Int` comparison used here. -/
def Audio_FeedStream (fuel : Nat) (busy : Bool) (refillLenBytes feedLenBytes : Nat)
    (ctx : StreamReadContext) :
    Option (StreamReadContext × Bool × Option (Int × Nat)) :=
  if busy then
    some (ctx, true, none)
  else if refillLenBytes < REFILL_THRESHOLD * 2048 then
    some (ctx, false, none)
  else
    match normFuel ctx.stream_length fuel ctx.next_sector with
    | none => none
    | some next_sector =>
      let max_length : Int := ctx.stream_length - next_sector
      let rl : Nat := feedLenBytes / 2048
      let refill_length : Nat :=
        if (rl : Int) > max_length then max_length.toNat else rl
      some ({ ctx with next_sector := next_sector + (refill_length : Int),
                       refill_length := refill_length },
        true, some (ctx.start_lba + next_sector, refill_length))

/-- `Audio_LoadStream` of `audio.c` (lines 207-261), up to the initial
buffer-fill loop (the fill is a sequence of `Audio_FeedStream` ticks, covered
by `Step`/`Reachable` below).  `found` stands for the result of
`CdSearchFile`; `none` models the `ErrorLock()` path.  On success the result
carries the byte-swapped sample rate stored into the stream configuration and
the initialized `read_ctx` (`start_lba = file sector + 1`, `stream_length`
from the header geometry, `next_sector = 0`, `refill_length = 0`).  The
header's `magic` and `version` fields are never inspected by the source. -/
def Audio_LoadStream (found : Bool) (file_lba : Int) (vag : VAG_Header) :
    Option (Nat × StreamReadContext) :=
  if !found then
    none
  else
    some (SWAP_ENDIAN vag.sample_rate,
      { start_lba := file_lba + 1,
        stream_length := (stream_length vag : Int),
        next_sector := 0,
        refill_length := 0 })

/-- Number of sectors of an issued read (`0` when no read was issued). -/
def issuedLen : Option (Int × Nat) → Nat
  | some p => p.2
  | none => 0

/-- State of the streaming system: the `read_ctx` struct, whether a CD read
is in flight (`CdReadSync(1, 0) > 0`), and the total byte count committed to
the ring buffer via `Stream_Feed`. -/
structure SysState where
  ctx : StreamReadContext
  reading : Bool
  fed : Nat
  deriving DecidableEq

/-- One event of the streaming system: either a poll tick running
`Audio_FeedStream` (with arbitrary values reported by the ring buffer), or
the CD completion callback firing for the in-flight read.  The step is
indexed by the number of sectors of the read issued by the event (0 for
completions and idle ticks). -/
inductive Step : SysState → Nat → SysState → Prop where
  | tick (s : SysState) (fuel refillB feedB : Nat) (ctx' : StreamReadContext)
      (ret : Bool) (issued : Option (Int × Nat))
      (h : Audio_FeedStream fuel s.reading refillB feedB s.ctx = some (ctx', ret, issued)) :
      Step s (issuedLen issued) ⟨ctx', s.reading || issued.isSome, s.fed⟩
  | complete (s : SysState) (e : CdlIntrResult) (h : s.reading = true) :
      Step s 0 ⟨s.ctx, false, s.fed + (cd_read_handler e s.ctx).getD 0⟩

/-- States reachable from a successful `Audio_LoadStream` for a file at
sector `lba` with header `vag`, under any sequence of poll ticks and read
completions. -/
inductive Reachable (lba : Int) (vag : VAG_Header) : SysState → Prop where
  | init (sr : Nat) (ctx0 : StreamReadContext)
      (h : Audio_LoadStream true lba vag = some (sr, ctx0)) :
      Reachable lba vag ⟨ctx0, false, 0⟩
  | step (s s' : SysState) (n : Nat) (hr : Reachable lba vag s) (hs : Step s n s') :
      Reachable lba vag s'

/-- A run of the system from `s` to `s'` whose issued reads total `t`
sectors. -/
inductive TraceTo : SysState → Nat → SysState → Prop where
  | refl (s : SysState) : TraceTo s 0 s
  | step (s : SysState) (t : Nat) (s' s'' : SysState) (n : Nat)
      (h : TraceTo s t s') (hs : Step s' n s'') : TraceTo s (t + n) s''

/-- The interleaved stereo header of the end-to-end scenario in the spec:
`interleave = 4096`, wire `size = 0x00A00000` (big-endian for 40960),
`channels = 2`; the magic/version words are left at `0` (not the documented
`VAGi` tag). -/
def vag40 : VAG_Header :=
  { magic := 0, version := 0, interleave := 4096, size := 0x00A00000,
    sample_rate := 0, channels := 2 }

/-- A header whose wire channel count is `0` (stereo default). -/
def vagZero : VAG_Header :=
  { magic := 0, version := 0, interleave := 4096, size := 0x00A00000,
    sample_rate := 0, channels := 0 }

/-! ### Properties of the normalization loop -/

/-- A value produced by the normalization loop is below `stream_length`
(the loop exit condition `max_length > 0`). -/
theorem normFuel_lt {L : Int} : ∀ {fuel : Nat} {next m : Int},
    normFuel L fuel next = some m → m < L := by
  intro fuel
  induction fuel with
  | zero =>
    intro next m h
    simp only [normFuel] at h
    split at h
    · exact absurd h (by simp)
    · next hc => injection h with h'; omega
  | succ k ih =>
    intro next m h
    simp only [normFuel] at h
    split at h
    · exact ih h
    · next hc => injection h with h'; omega

/-- The normalization loop keeps the cursor nonnegative: it only subtracts
`L` while `next ≥ L`. -/
theorem normFuel_nonneg {L : Int} : ∀ {fuel : Nat} {next m : Int},
    0 ≤ next → normFuel L fuel next = some m → 0 ≤ m := by
  intro fuel
  induction fuel with
  | zero =>
    intro next m h0 h
    simp only [normFuel] at h
    split at h
    · exact absurd h (by simp)
    · injection h with h'; omega
  | succ k ih =>
    intro next m h0 h
    simp only [normFuel] at h
    split at h
    · next hc => exact ih (by omega) h
    · injection h with h'; omega

/-- The normalization loop preserves the cursor modulo `L`. -/
theorem normFuel_emod {L : Int} : ∀ {fuel : Nat} {next m : Int},
    normFuel L fuel next = some m → m % L = next % L := by
  intro fuel
  induction fuel with
  | zero =>
    intro next m h
    simp only [normFuel] at h
    split at h
    · exact absurd h (by simp)
    · injection h with h'; rw [h']
  | succ k ih =>
    intro next m h
    simp only [normFuel] at h
    split at h
    · have h1 := ih h
      have h2 : next - L = next + L * (-1) := by ring
      rw [h1, h2, Int.add_mul_emod_self_left]
    · injection h with h'; rw [h']

/-- For a positive `stream_length` the normalization loop terminates:
`next.toNat` iterations of fuel always suffice. -/
theorem normFuel_total {L : Int} (hL : 1 ≤ L) :
    ∀ (fuel : Nat) (next : Int), next.toNat ≤ fuel →
      (normFuel L fuel next).isSome = true := by
  intro fuel
  induction fuel with
  | zero =>
    intro next hn
    simp only [normFuel]
    split
    · next hc => omega
    · simp
  | succ k ih =>
    intro next hn
    simp only [normFuel]
    split
    · next hc => exact ih (next - L) (by omega)
    · simp

/-- With `stream_length = 0` and a nonnegative cursor the normalization loop
never terminates, whatever the fuel. -/
theorem normFuel_zero_none : ∀ (fuel : Nat) (next : Int), 0 ≤ next →
    normFuel 0 fuel next = none := by
  intro fuel
  induction fuel with
  | zero =>
    intro next h0
    simp only [normFuel]
    split
    · rfl
    · next hc => omega
  | succ k ih =>
    intro next h0
    simp only [normFuel]
    split
    · simpa using ih (next - 0) (by omega)
    · next hc => omega

/-- A terminating run of the loop yields exactly `next % L` when started from
a nonnegative cursor with positive `L`. -/
theorem normFuel_exists_emod {L : Int} (hL : 1 ≤ L) (next : Int) (h0 : 0 ≤ next) :
    ∃ fuel, normFuel L fuel next = some (next % L) := by
  refine ⟨next.toNat, ?_⟩
  have hs := normFuel_total hL next.toNat next le_rfl
  obtain ⟨m, hm⟩ := Option.isSome_iff_exists.mp hs
  have h1 := normFuel_lt hm
  have h2 := normFuel_nonneg h0 hm
  have h3 := normFuel_emod hm
  have h4 : m % L = m := Int.emod_eq_of_lt h2 h1
  rw [hm, ← h4, h3]

/-! ### Characterization of a scheduler tick -/

/-- Complete case analysis of `Audio_FeedStream`: a tick either leaves the
read context untouched and issues no read (drive busy, or free space below
the refill threshold), or issues a read of
`min (feedLenBytes / 2048) (stream_length - n)` sectors at
`start_lba + n` for the normalized cursor `n`, advancing `next_sector`
immediately. -/
theorem Audio_FeedStream_cases {fuel : Nat} {busy : Bool} {refillB feedB : Nat}
    {ctx ctx' : StreamReadContext} {ret : Bool} {issued : Option (Int × Nat)}
    (h : Audio_FeedStream fuel busy refillB feedB ctx = some (ctx', ret, issued)) :
    (ctx' = ctx ∧ issued = none) ∨
    (∃ (n : Int) (len : Nat), busy = false ∧
      normFuel ctx.stream_length fuel ctx.next_sector = some n ∧
      REFILL_THRESHOLD * 2048 ≤ refillB ∧
      (len : Int) = min ((feedB / 2048 : Nat) : Int) (ctx.stream_length - n) ∧
      issued = some (ctx.start_lba + n, len) ∧
      ctx' = { ctx with next_sector := n + (len : Int), refill_length := len } ∧
      ret = true) := by
  unfold Audio_FeedStream at h
  split at h
  · left
    simp only [Option.some.injEq, Prod.mk.injEq] at h
    exact ⟨h.1.symm, h.2.2.symm⟩
  · split at h
    · left
      simp only [Option.some.injEq, Prod.mk.injEq] at h
      exact ⟨h.1.symm, h.2.2.symm⟩
    · next hbusy hth =>
      split at h
      · exact absurd h (by simp)
      · next n heq =>
        right
        simp only [Option.some.injEq, Prod.mk.injEq] at h
        obtain ⟨hctx, hret, hiss⟩ := h
        have hlt : n < ctx.stream_length := normFuel_lt heq
        refine ⟨n, (if ((feedB / 2048 : Nat) : Int) > ctx.stream_length - n then
          (ctx.stream_length - n).toNat else feedB / 2048), by simpa using hbusy, heq,
          by omega, ?_, ?_, ?_, hret.symm⟩
        · split
          · next hgt =>
            rw [Int.toNat_of_nonneg (by omega), min_eq_right (le_of_lt hgt)]
          · next hle =>
            rw [min_eq_left (by omega)]
        · exact hiss.symm
        · exact hctx.symm

/-! ### Geometry -/

/-- `(a + b - 1) / b` is the ceiling of `a / b`: Galois characterization and
the ceiling property. -/
theorem ceil_div_spec (a b : Nat) (hb : 0 < b) :
    (∀ k : Nat, ((a + b - 1) / b ≤ k ↔ a ≤ k * b)) ∧ a ≤ (a + b - 1) / b * b := by
  have hiff : ∀ k : Nat, ((a + b - 1) / b ≤ k ↔ a ≤ k * b) := by
    intro k
    rw [Nat.div_le_iff_le_mul_add_pred hb, Nat.mul_comm k b]
    generalize b * k = m
    omega
  exact ⟨hiff, (hiff _).mp le_rfl⟩

/-- C5: the geometry is a pure function of the parsed header:
`num_chunks = ceil(swapped size / interleave)` (both as the C formula with
the `uint32_t` wrap removed under the no-overflow hypothesis, and via the
Galois characterization of the ceiling), `chunk_count * interleave ≥
total_size` (ceiling property), `stream_length = ceil(channels * chunks *
interleave / 2048)` under its own no-overflow hypothesis, and the sample
rate stored by `Audio_LoadStream` is the byte-swapped big-endian wire
value. -/
theorem c5_theorem (vag : VAG_Header) (hI : 0 < vag.interleave)
    (hno : SWAP_ENDIAN vag.size + vag.interleave ≤ U32) :
    num_chunks vag = (SWAP_ENDIAN vag.size + vag.interleave - 1) / vag.interleave ∧
    SWAP_ENDIAN vag.size ≤ num_chunks vag * vag.interleave ∧
    (∀ k : Nat, (num_chunks vag ≤ k ↔ SWAP_ENDIAN vag.size ≤ k * vag.interleave)) ∧
    (num_channels vag * num_chunks vag * vag.interleave + 2047 < U32 →
      stream_length vag
          = (num_channels vag * num_chunks vag * vag.interleave + 2047) / 2048 ∧
        num_channels vag * num_chunks vag * vag.interleave ≤ stream_length vag * 2048 ∧
        ∀ k : Nat, (stream_length vag ≤ k ↔
          num_channels vag * num_chunks vag * vag.interleave ≤ k * 2048)) ∧
    (∀ lba : Int, (Audio_LoadStream true lba vag).map Prod.fst
        = some (SWAP_ENDIAN vag.sample_rate)) := by
  have hU : U32 = 4294967296 := rfl
  have ha : num_chunks vag
      = (SWAP_ENDIAN vag.size + vag.interleave - 1) / vag.interleave := by
    unfold num_chunks
    have h1 : SWAP_ENDIAN vag.size + vag.interleave + (U32 - 1)
        = (SWAP_ENDIAN vag.size + vag.interleave - 1) + U32 := by omega
    rw [h1, Nat.add_mod_right, Nat.mod_eq_of_lt (by omega)]
  obtain ⟨hiff, hceil⟩ := ceil_div_spec (SWAP_ENDIAN vag.size) vag.interleave hI
  refine ⟨ha, ?_, ?_, ?_, ?_⟩
  · rw [ha]; exact hceil
  · intro k; rw [ha]; exact hiff k
  · intro hX
    have key : ∀ Y : Nat, Y + 2047 < 4294967296 →
        (Y % 4294967296 + 2047) % 4294967296 / 2048 = (Y + 2047) / 2048 := by
      intro Y hY
      omega
    have hsl : stream_length vag
        = (num_channels vag * num_chunks vag * vag.interleave + 2047) / 2048 := by
      unfold stream_length
      exact key _ hX
    obtain ⟨hiff2, hceil2⟩ :=
      ceil_div_spec (num_channels vag * num_chunks vag * vag.interleave) 2048
        (by norm_num)
    have h2 : num_channels vag * num_chunks vag * vag.interleave + 2048 - 1
        = num_channels vag * num_chunks vag * vag.interleave + 2047 := by omega
    rw [h2] at hiff2 hceil2
    refine ⟨hsl, ?_, ?_⟩
    · rw [hsl]; exact hceil2
    · intro k; rw [hsl]; exact hiff2 k
  · intro lba; rfl

/-- C5 witness: the spec's end-to-end header (`interleave = 4096`, wire size
`0x00A00000`, i.e. 40960 bytes) satisfies the hypotheses; ceiling property
and formula instantiated there. -/
theorem c5_witness :
    num_chunks vag40
        = (SWAP_ENDIAN vag40.size + vag40.interleave - 1) / vag40.interleave ∧
    SWAP_ENDIAN vag40.size ≤ num_chunks vag40 * vag40.interleave :=
  ⟨(c5_theorem vag40 (by decide) (by decide)).1,
   (c5_theorem vag40 (by decide) (by decide)).2.1⟩

/-- C9: a wire channel count of `0` is normalized to `2` before it is used
for the geometry (`stream_length` of a 0-channel header equals that of the
same header with 2 channels), and a nonzero wire channel count is used
as-is. -/
theorem c9_theorem (vag : VAG_Header) :
    (vag.channels = 0 → num_channels vag = 2 ∧
      stream_length vag = stream_length { vag with channels := 2 }) ∧
    (vag.channels ≠ 0 → num_channels vag = vag.channels) := by
  constructor
  · intro h
    constructor
    · simp [num_channels, h]
    · simp [stream_length, num_chunks, num_channels, h]
  · intro h
    simp [num_channels, h]

/-- C9 witness: the normalization at a concrete 0-channel header and the
as-is use at a concrete stereo header. -/
theorem c9_witness : num_channels vagZero = 2 ∧ num_channels vag40 = 2 :=
  ⟨((c9_theorem vagZero).1 rfl).1, (c9_theorem vag40).2 (by decide)⟩

/-- C3 (amended): opening a stream fails only when the file is not found on
disc; the header's magic/version tag is never inspected, so opening
proceeds for every header and the result does not depend on the magic and
version fields. -/
theorem c3_theorem (found : Bool) (lba : Int) (vag : VAG_Header) :
    Audio_LoadStream false lba vag = none ∧
    (Audio_LoadStream true lba vag).isSome = true ∧
    ∀ m v : Nat,
      Audio_LoadStream found lba { vag with magic := m, version := v }
        = Audio_LoadStream found lba vag := by
  refine ⟨rfl, rfl, ?_⟩
  intro m v
  rfl

/-- C3 counterexample: a header whose magic word (0) is not the documented
`VAGi` tag is opened successfully — no fatal format error is raised; the
claim that an unrecognized magic/version makes opening fail is false of the
code. -/
theorem c3_counterexample :
    vag40.magic ≠ VAGi_MAGIC ∧
    Audio_LoadStream true 100 vag40 = some (0, ⟨101, 40, 0, 0⟩) :=
  ⟨by decide, by decide⟩

/-- C10: the cursor-normalization loop of `Audio_FeedStream` terminates for
every cursor whenever `stream_length ≥ 1`; conversely a terminating run from
a nonnegative cursor forces `stream_length ≥ 1`; and for
`stream_length = 0` (e.g. a header with total size 0) a tick that passes the
drive-idle and refill-threshold checks never terminates, whatever the
fuel. -/
theorem c10_theorem :
    (∀ (L next : Int), 1 ≤ L → ∃ fuel, (normFuel L fuel next).isSome = true) ∧
    (∀ (L : Int) (fuel : Nat) (next : Int), 0 ≤ next →
      (normFuel L fuel next).isSome = true → 1 ≤ L) ∧
    (∀ (fuel refillB feedB : Nat) (ctx : StreamReadContext),
      ctx.stream_length = 0 → 0 ≤ ctx.next_sector →
      REFILL_THRESHOLD * 2048 ≤ refillB →
      Audio_FeedStream fuel false refillB feedB ctx = none) := by
  refine ⟨?_, ?_, ?_⟩
  · intro L next hL
    exact ⟨next.toNat, normFuel_total hL next.toNat next le_rfl⟩
  · intro L fuel next h0 hs
    obtain ⟨m, hm⟩ := Option.isSome_iff_exists.mp hs
    have h1 := normFuel_lt hm
    have h2 := normFuel_nonneg h0 hm
    omega
  · intro fuel refillB feedB ctx hL h0 hth
    unfold Audio_FeedStream
    rw [if_neg (by simp), if_neg (by omega), hL,
      normFuel_zero_none fuel ctx.next_sector h0]

/-- C10 witness: with `stream_length = 0` and the threshold check passed,
`Audio_FeedStream` diverges (here shown for fuel 5). -/
theorem c10_witness :
    Audio_FeedStream 5 false 49152 2048 ⟨100, 0, 0, 0⟩ = none :=
  c10_theorem.2.2 5 49152 2048 ⟨100, 0, 0, 0⟩ rfl (by decide) (by decide)

/-! ### Read scheduler claims -/

/-- C4: whenever `Audio_FeedStream` issues a read, the requested sector count
equals `min` of the free writable space reported by `Stream_GetFeedPtr` (in
2048-byte blocks) and the distance from the normalized cursor `n` to the
logical end of the stream; the read starts at `start_lba + n` and never
extends past the logical end. -/
theorem c4_theorem (fuel refillB feedB : Nat) (ctx ctx' : StreamReadContext)
    (ret : Bool) (pos : Int) (len : Nat) (n : Int)
    (hrun : Audio_FeedStream fuel false refillB feedB ctx
      = some (ctx', ret, some (pos, len)))
    (hn : normFuel ctx.stream_length fuel ctx.next_sector = some n) :
    (len : Int) = min ((feedB / 2048 : Nat) : Int) (ctx.stream_length - n) ∧
    pos = ctx.start_lba + n ∧
    n + (len : Int) ≤ ctx.stream_length := by
  rcases Audio_FeedStream_cases hrun with ⟨_, hnone⟩ | ⟨n', len', _, hn', _, hlen, hiss, _, _⟩
  · exact absurd hnone (by simp)
  · rw [hn] at hn'
    injection hn' with hnn
    subst hnn
    obtain ⟨hpos, hl⟩ : pos = ctx.start_lba + n ∧ len = len' := by
      simpa [Prod.ext_iff] using hiss
    subst hl
    refine ⟨hlen, hpos, ?_⟩
    have := min_le_right ((feedB / 2048 : Nat) : Int) (ctx.stream_length - n)
    omega

/-- C4 witness: the spec scenario `next_sector = 35`, `stream_length = 40`,
`Stream_GetFeedPtr` reporting 40960 bytes (20 blocks): the issued read is
`min 20 5 = 5` sectors at `start_lba + 35`, ending exactly at the logical
end. -/
theorem c4_witness :
    ((5 : Nat) : Int) = min ((40960 / 2048 : Nat) : Int) ((40 : Int) - 35) ∧
    (135 : Int) = (100 : Int) + 35 ∧
    (35 : Int) + ((5 : Nat) : Int) ≤ (40 : Int) :=
  c4_theorem 1 49152 40960 ⟨100, 40, 35, 0⟩ ⟨100, 40, 40, 5⟩ true 135 5 35
    (by decide) (by decide)

/-- C6 (amended): `Audio_FeedStream` contains no zero-length guard; the
issued read length is nevertheless positive whenever the ring buffer reports
at least one full 2048-byte block writable via `Stream_GetFeedPtr`. -/
theorem c6_theorem (fuel refillB feedB : Nat) (ctx ctx' : StreamReadContext)
    (ret : Bool) (pos : Int) (len : Nat)
    (hrun : Audio_FeedStream fuel false refillB feedB ctx
      = some (ctx', ret, some (pos, len)))
    (hfeed : 2048 ≤ feedB) : 0 < len := by
  rcases Audio_FeedStream_cases hrun with ⟨_, hnone⟩ | ⟨n, len', _, hn, _, hlen, hiss, _, _⟩
  · exact absurd hnone (by simp)
  · obtain ⟨-, hl⟩ : pos = ctx.start_lba + n ∧ len = len' := by
      simpa [Prod.ext_iff] using hiss
    subst hl
    have hlt : n < ctx.stream_length := normFuel_lt hn
    have h1 : (1 : Int) ≤ ((feedB / 2048 : Nat) : Int) := by
      exact_mod_cast (Nat.one_le_div_iff (by norm_num)).mpr hfeed
    have h2 : (1 : Int) ≤ ctx.stream_length - n := by omega
    have h3 : (1 : Int) ≤ (len : Int) := hlen ▸ le_min h1 h2
    omega

/-- C6 counterexample: when `Stream_GetRefillLength` reports the threshold
amount free but `Stream_GetFeedPtr` reports 0 writable bytes, the scheduler
issues a zero-length `CdRead` and returns `true` — it does not remain idle,
contradicting the claim that a computed length of 0 issues nothing. -/
theorem c6_counterexample :
    Audio_FeedStream 1 false 49152 0 ⟨100, 40, 0, 0⟩
      = some (⟨100, 40, 0, 0⟩, true, some (100, 0)) := by decide

/-- C6 witness: a concrete issued read with positive length. -/
theorem c6_witness : 0 < 5 :=
  c6_theorem 1 49152 40960 ⟨100, 40, 35, 0⟩ ⟨100, 40, 40, 5⟩ true 135 5
    (by decide) (by decide)

/-- C7 counterexample: with `next_sector = 35`, `stream_length = 40` and the
buffer reporting 20 free blocks (40960 bytes, below the 24-block
`REFILL_THRESHOLD`), `Audio_FeedStream` returns `false` and issues nothing —
not a 5-sector read as the claim states. -/
theorem c7_counterexample :
    Audio_FeedStream 1 false 40960 40960 ⟨100, 40, 35, 0⟩
      = some (⟨100, 40, 35, 0⟩, false, none) := by decide

/-- C7 (amended): with `next_sector = 35`, `stream_length = 40`, the refill
length at least the 24-block threshold and `Stream_GetFeedPtr` reporting 20
blocks, the issued read is capped to 5 sectors (the distance to the wrap
point), not 20; the completion leaves the context unchanged, and the next
tick normalizes the cursor 40 to 0 and issues a fresh read at
`start_lba + 0`. -/
theorem c7_theorem :
    Audio_FeedStream 1 false 49152 40960 ⟨100, 40, 35, 0⟩
      = some (⟨100, 40, 40, 5⟩, true, some (135, 5)) ∧
    Audio_FeedStream 1 false 49152 40960 ⟨100, 40, 40, 5⟩
      = some (⟨100, 40, 20, 20⟩, true, some (100, 20)) :=
  ⟨by decide, by decide⟩

/-- C1 (amended): on `CdlDiskError` the completion handler feeds nothing to
the ring buffer (and by construction writes no field of `read_ctx`); on any
other event it feeds exactly the pending `refill_length * 2048` bytes.  The
read cursor, however, is advanced already when the read is issued — the
post-issue `next_sector` equals the issued position's offset plus the issued
length before any completion is observed — so after an error the next tick
reads the region following the failed one rather than retrying it. -/
theorem c1_theorem :
    (∀ ctx : StreamReadContext,
      cd_read_handler CdlIntrResult.CdlDiskError ctx = none) ∧
    (∀ (e : CdlIntrResult) (ctx : StreamReadContext),
      e ≠ CdlIntrResult.CdlDiskError →
      cd_read_handler e ctx = some (ctx.refill_length * 2048)) ∧
    (∀ (fuel refillB feedB : Nat) (ctx ctx' : StreamReadContext) (ret : Bool)
        (pos : Int) (len : Nat),
      Audio_FeedStream fuel false refillB feedB ctx
        = some (ctx', ret, some (pos, len)) →
      ctx'.next_sector = pos - ctx.start_lba + (len : Int)) := by
  refine ⟨fun ctx => rfl, ?_, ?_⟩
  · intro e ctx he
    simp [cd_read_handler, he]
  · intro fuel refillB feedB ctx ctx' ret pos len hrun
    rcases Audio_FeedStream_cases hrun with ⟨_, hnone⟩ | ⟨n, len', _, hn, _, hlen, hiss, hctx, _⟩
    · exact absurd hnone (by simp)
    · obtain ⟨hpos, hl⟩ : pos = ctx.start_lba + n ∧ len = len' := by
        simpa [Prod.ext_iff] using hiss
      subst hl
      rw [hctx, hpos]
      simp only []
      ring

/-- C1 counterexample: a read of 5 sectors is issued at sector 100 and
`next_sector` is advanced to 5 immediately; a `CdlDiskError` completion
feeds nothing, yet the next tick issues its read at sector 105 — the region
after the failed one, not the same region; the cursor was advanced without
any confirmed success. -/
theorem c1_counterexample :
    Audio_FeedStream 1 false 49152 10240 ⟨100, 40, 0, 0⟩
      = some (⟨100, 40, 5, 5⟩, true, some (100, 5)) ∧
    cd_read_handler CdlIntrResult.CdlDiskError ⟨100, 40, 5, 5⟩ = none ∧
    Audio_FeedStream 1 false 49152 10240 ⟨100, 40, 5, 5⟩
      = some (⟨100, 40, 10, 5⟩, true, some (105, 5)) ∧
    (105 : Int) ≠ 100 ∧ (5 : Int) ≠ 0 :=
  ⟨by decide, rfl, by decide, by decide, by decide⟩

/-- C1 witness: the amended behaviours at a concrete context. -/
theorem c1_witness :
    cd_read_handler CdlIntrResult.CdlDiskError ⟨100, 40, 5, 5⟩ = none ∧
    cd_read_handler CdlIntrResult.CdlComplete ⟨100, 40, 5, 5⟩ = some (5 * 2048) ∧
    (⟨100, 40, 5, 5⟩ : StreamReadContext).next_sector
      = (100 : Int) - 100 + ((5 : Nat) : Int) :=
  ⟨c1_theorem.1 ⟨100, 40, 5, 5⟩,
   c1_theorem.2.1 CdlIntrResult.CdlComplete ⟨100, 40, 5, 5⟩ (by decide),
   c1_theorem.2.2 1 49152 10240 ⟨100, 40, 0, 0⟩ ⟨100, 40, 5, 5⟩ true 100 5 (by decide)⟩

/-! ### System-level invariants -/

/-- Any system step preserves `start_lba` and `stream_length`, keeps the
cursor nonnegative, shifts it by the issued sector count modulo
`stream_length`, and keeps it at most `stream_length` when it was. -/
theorem Step_inv {s : SysState} {n : Nat} {s' : SysState} (h : Step s n s')
    (h0 : 0 ≤ s.ctx.next_sector) :
    s'.ctx.start_lba = s.ctx.start_lba ∧
    s'.ctx.stream_length = s.ctx.stream_length ∧
    0 ≤ s'.ctx.next_sector ∧
    s'.ctx.next_sector % s.ctx.stream_length
      = (s.ctx.next_sector + (n : Int)) % s.ctx.stream_length ∧
    (s.ctx.next_sector ≤ s.ctx.stream_length →
      s'.ctx.next_sector ≤ s.ctx.stream_length) := by
  cases h with
  | tick fuel refillB feedB ctx' ret issued hfeed =>
    rcases Audio_FeedStream_cases hfeed with ⟨hctx, hiss⟩ |
        ⟨m, len, _, hm, _, hlen, hiss, hctx, _⟩
    · subst hctx
      subst hiss
      exact ⟨rfl, rfl, h0, by simp [issuedLen], fun h => h⟩
    · subst hctx
      subst hiss
      have hml := normFuel_lt hm
      have hm0 := normFuel_nonneg h0 hm
      have hmod := normFuel_emod hm
      have hle : (len : Int) ≤ s.ctx.stream_length - m := by
        have := min_le_right ((feedB / 2048 : Nat) : Int) (s.ctx.stream_length - m)
        omega
      refine ⟨rfl, rfl, by positivity, ?_, fun _ => by
        show m + (len : Int) ≤ s.ctx.stream_length
        omega⟩
      show (m + (len : Int)) % s.ctx.stream_length
        = (s.ctx.next_sector + (issuedLen (some (s.ctx.start_lba + m, len)) : Int))
          % s.ctx.stream_length
      rw [show issuedLen (some (s.ctx.start_lba + m, len)) = len from rfl,
        Int.add_emod, hmod, ← Int.add_emod]
  | complete e hs =>
    exact ⟨rfl, rfl, h0, by simp, fun h => h⟩

/-- C2 (amended): from any successful `Audio_LoadStream` initialization,
every state reachable by poll ticks and completions keeps
`0 ≤ next_sector ≤ stream_length` (with `stream_length` the header
geometry, unchanged).  The upper bound is attained: see
`c2_counterexample`, so the strict invariant `next_sector <
stream_length` of the claim fails; normalization into `[0,
stream_length)` happens at the start of the next issuing tick. -/
theorem c2_theorem (lba : Int) (vag : VAG_Header) (s : SysState)
    (h : Reachable lba vag s) :
    0 ≤ s.ctx.next_sector ∧
    s.ctx.next_sector ≤ s.ctx.stream_length ∧
    s.ctx.stream_length = (stream_length vag : Int) := by
  induction h with
  | init sr ctx0 h0 =>
    have h0' : (some (SWAP_ENDIAN vag.sample_rate,
        ({ start_lba := lba + 1, stream_length := (stream_length vag : Int),
           next_sector := 0, refill_length := 0 } : StreamReadContext))
        : Option (Nat × StreamReadContext)) = some (sr, ctx0) := h0
    simp only [Option.some.injEq, Prod.mk.injEq] at h0'
    obtain ⟨-, hctx0⟩ := h0'
    subst hctx0
    refine ⟨le_refl 0, ?_, rfl⟩
    positivity
  | step s s' n hr hstep ih =>
    obtain ⟨ih0, ih1, ih2⟩ := ih
    obtain ⟨hst, hsl, hnn, hmod, hle⟩ := Step_inv hstep ih0
    exact ⟨hnn, by rw [hsl]; exact hle ih1, hsl.trans ih2⟩

/-- C2 counterexample: a reachable state (one full-buffer read of 40 sectors
from the start of the `vag40` stream) in which the stored `next_sector`
equals `stream_length = 40`, violating the claimed strict bound
`next_sector < stream_length`. -/
theorem c2_counterexample :
    Reachable 100 vag40 ⟨⟨101, 40, 40, 40⟩, true, 0⟩ ∧
    ¬ ((⟨⟨101, 40, 40, 40⟩, true, 0⟩ : SysState).ctx.next_sector
        < (stream_length vag40 : Int)) := by
  constructor
  · refine Reachable.step ⟨⟨101, 40, 0, 0⟩, false, 0⟩ _ 40
      (Reachable.init 0 ⟨101, 40, 0, 0⟩ (by decide)) ?_
    exact Step.tick ⟨⟨101, 40, 0, 0⟩, false, 0⟩ 1 81920 81920 ⟨101, 40, 40, 40⟩
      true (some (101, 40)) (by decide)
  · decide

/-- C2 witness: the invariant at the freshly initialized state of the
`vag40` stream. -/
theorem c2_witness :
    0 ≤ (⟨⟨101, 40, 0, 0⟩, false, 0⟩ : SysState).ctx.next_sector ∧
    (⟨⟨101, 40, 0, 0⟩, false, 0⟩ : SysState).ctx.next_sector
      ≤ (⟨⟨101, 40, 0, 0⟩, false, 0⟩ : SysState).ctx.stream_length ∧
    (⟨⟨101, 40, 0, 0⟩, false, 0⟩ : SysState).ctx.stream_length
      = (stream_length vag40 : Int) :=
  c2_theorem 100 vag40 ⟨⟨101, 40, 0, 0⟩, false, 0⟩
    (Reachable.init 0 ⟨101, 40, 0, 0⟩ (by decide))

/-- Along any trace the cursor stays nonnegative, `stream_length` is
preserved, and the cursor shifts by the total issued sector count modulo
`stream_length`. -/
theorem traceTo_inv {s : SysState} {t : Nat} {s' : SysState}
    (h : TraceTo s t s') (h0 : 0 ≤ s.ctx.next_sector) :
    0 ≤ s'.ctx.next_sector ∧
    s'.ctx.stream_length = s.ctx.stream_length ∧
    s'.ctx.next_sector % s.ctx.stream_length
      = (s.ctx.next_sector + (t : Int)) % s.ctx.stream_length := by
  induction h with
  | refl => exact ⟨h0, rfl, by simp⟩
  | step t s' s'' n h hs ih =>
    obtain ⟨i0, i1, i2⟩ := ih
    obtain ⟨hst, hsl, hnn, hmod, hle⟩ := Step_inv hs i0
    refine ⟨hnn, hsl.trans i1, ?_⟩
    rw [i1] at hmod
    rw [hmod, Int.add_emod, i2, ← Int.add_emod]
    congr 1
    push_cast
    ring

/-- C8 (amended): a run whose issued reads total a multiple of
`stream_length` returns the cursor to a value congruent to its start modulo
`stream_length` (the stored `next_sector` may be `start + stream_length`
when the last read ends exactly at the logical end, see
`c8_counterexample`); the normalization loop then maps it back to the
starting residue, so advancement is addition modulo `stream_length` on the
normalized cursor, not on the stored one. -/
theorem c8_theorem (s : SysState) (t : Nat) (s' : SysState)
    (h : TraceTo s t s') (h0 : 0 ≤ s.ctx.next_sector)
    (hL : 1 ≤ s.ctx.stream_length)
    (hdvd : s.ctx.stream_length ∣ (t : Int)) :
    s'.ctx.next_sector % s.ctx.stream_length
      = s.ctx.next_sector % s.ctx.stream_length ∧
    ∃ fuel, normFuel s.ctx.stream_length fuel s'.ctx.next_sector
      = some (s.ctx.next_sector % s.ctx.stream_length) := by
  obtain ⟨h1, h2, h3⟩ := traceTo_inv h h0
  obtain ⟨k, hk⟩ := hdvd
  have hcong : s'.ctx.next_sector % s.ctx.stream_length
      = s.ctx.next_sector % s.ctx.stream_length := by
    rw [h3, hk, Int.add_mul_emod_self_left]
  refine ⟨hcong, ?_⟩
  obtain ⟨fuel, hf⟩ := normFuel_exists_emod hL s'.ctx.next_sector h1
  rw [hcong] at hf
  exact ⟨fuel, hf⟩

/-- C8 counterexample: starting from cursor 0 with `stream_length = 40`, a
single completed read of exactly 40 sectors leaves the stored `next_sector`
at 40, not back at its starting value 0 — the claim is false of the stored
cursor. -/
theorem c8_counterexample :
    TraceTo ⟨⟨100, 40, 0, 0⟩, false, 0⟩ 40 ⟨⟨100, 40, 40, 40⟩, true, 0⟩ ∧
    (⟨⟨100, 40, 40, 40⟩, true, 0⟩ : SysState).ctx.next_sector
      ≠ (⟨⟨100, 40, 0, 0⟩, false, 0⟩ : SysState).ctx.next_sector := by
  constructor
  · exact TraceTo.step _ 0 _ _ 40 (TraceTo.refl _)
      (Step.tick ⟨⟨100, 40, 0, 0⟩, false, 0⟩ 1 81920 81920 ⟨100, 40, 40, 40⟩
        true (some (100, 40)) (by decide))
  · decide

/-- C8 witness: a three-event trace (issue 5 sectors from cursor 35,
successful completion, issue 35 sectors after wrapping) totals 40 issued
sectors and returns the cursor residue to its start. -/
theorem c8_witness :
    (⟨⟨100, 40, 35, 35⟩, true, 10240⟩ : SysState).ctx.next_sector % 40
      = (⟨⟨100, 40, 35, 0⟩, false, 0⟩ : SysState).ctx.next_sector % 40 := by
  have h1 : Step ⟨⟨100, 40, 35, 0⟩, false, 0⟩ 5 ⟨⟨100, 40, 40, 5⟩, true, 0⟩ :=
    Step.tick ⟨⟨100, 40, 35, 0⟩, false, 0⟩ 1 49152 10240 ⟨100, 40, 40, 5⟩
      true (some (135, 5)) (by decide)
  have h2 : Step ⟨⟨100, 40, 40, 5⟩, true, 0⟩ 0 ⟨⟨100, 40, 40, 5⟩, false, 10240⟩ :=
    Step.complete ⟨⟨100, 40, 40, 5⟩, true, 0⟩ CdlIntrResult.CdlComplete rfl
  have h3 : Step ⟨⟨100, 40, 40, 5⟩, false, 10240⟩ 35 ⟨⟨100, 40, 35, 35⟩, true, 10240⟩ :=
    Step.tick ⟨⟨100, 40, 40, 5⟩, false, 10240⟩ 1 49152 71680 ⟨100, 40, 35, 35⟩
      true (some (100, 35)) (by decide)
  have ht : TraceTo ⟨⟨100, 40, 35, 0⟩, false, 0⟩ 40 ⟨⟨100, 40, 35, 35⟩, true, 10240⟩ :=
    TraceTo.step _ 5 _ _ 35
      (TraceTo.step _ 5 _ _ 0
        (TraceTo.step _ 0 _ _ 5 (TraceTo.refl _) h1) h2) h3
  exact (c8_theorem ⟨⟨100, 40, 35, 0⟩, false, 0⟩ 40 ⟨⟨100, 40, 35, 35⟩, true, 10240⟩
    ht (by decide) (by decide) (dvd_refl 40)).1
